import Mathlib

/-!
Shallow embedding of the curses_demo socket client core
(src/backend.py, src/interface.py, src/client.py).

Modelling conventions:
* A byte is a Nat in [0, 255]; a text value (Python str) is a list of
  Unicode code points, also Nat.  All outbound user text is ASCII, so
  slicing characters coincides with slicing bytes and str.encode is the
  identity on the code lists.
* Socket reads are scripted: a readable event carries the list of
  successive sock.recv(4096) results, consumed exactly the way the
  while-loop in Backend._handle_io consumes them.
* Queue traffic is recorded as lists of pushed items, in push order.
-/

/-- The sentinel text ;quit as a list of code points (59 113 117 105 116). -/
def quitText : List Nat := [59, 113, 117, 105, 116]

/-- ASCII lower-casing of one code point, as Python str.lower acts on
ASCII: upper-case letters 65..90 map to 97..122, all other ASCII code
points are fixed.  Used by UserInterface._handle_output (interface.py
line 169) which compares message.lower() with the sentinel. -/
def pyLower (c : Nat) : Nat := if 65 ≤ c ∧ c ≤ 90 then c + 32 else c

/-- Lower-casing of a text value, code point by code point. -/
def lowerText (l : List Nat) : List Nat := l.map pyLower

/-- The code points of string.printable, in source order: digits,
lower-case letters, upper-case letters, punctuation, whitespace
(space, tab, line feed, carriage return, vertical tab, form feed).
Backend._handle_io (backend.py line 79) tests byte membership in this
list, and KEYS in interface.py starts from the same list. -/
def printableOrds : List Nat :=
  [48, 49, 50, 51, 52, 53, 54, 55, 56, 57,
   97, 98, 99, 100, 101, 102, 103, 104, 105, 106, 107, 108, 109, 110,
   111, 112, 113, 114, 115, 116, 117, 118, 119, 120, 121, 122,
   65, 66, 67, 68, 69, 70, 71, 72, 73, 74, 75, 76, 77, 78, 79, 80,
   81, 82, 83, 84, 85, 86, 87, 88, 89, 90,
   33, 34, 35, 36, 37, 38, 39, 40, 41, 42, 43, 44, 45, 46, 47,
   58, 59, 60, 61, 62, 63, 64,
   91, 92, 93, 94, 95, 96,
   123, 124, 125, 126,
   32, 9, 10, 13, 11, 12]

/-- Whether a byte is a UTF-8 continuation byte (0x80..0xBF). -/
def isCont (b : Nat) : Bool := 0x80 ≤ b && b ≤ 0xBF

/-- The state of a strict UTF-8 decoder: ok carries the code points
decoded so far; mid carries, in the middle of a multi-byte sequence,
the code-point bits accumulated so far, the number of continuation
bytes still owed, and the admissible range of the next byte (tightened
after the lead byte to reject overlong forms and surrogates); bad is
the error state. -/
inductive Utf8State
  | ok (acc : List Nat)
  | mid (acc : List Nat) (cp : Nat) (need : Nat) (lo hi : Nat)
  | bad
deriving DecidableEq

/-- One byte of strict UTF-8 decoding.  Lead bytes 0xC2..0xDF open a
two-byte sequence, 0xE0..0xEF a three-byte one and 0xF0..0xF4 a
four-byte one, with the first-continuation ranges of the E0, ED, F0
and F4 rows excluding overlong forms, surrogates and code points above
0x10FFFF; everything else in a clean state, and any out-of-range
continuation byte, is an error. -/
def utf8Step : Utf8State → Nat → Utf8State
  | Utf8State.bad, _ => Utf8State.bad
  | Utf8State.ok acc, b =>
    if b < 0x80 then Utf8State.ok (acc ++ [b])
    else if 0xC2 ≤ b ∧ b ≤ 0xDF then Utf8State.mid acc (b - 0xC0) 1 0x80 0xBF
    else if b = 0xE0 then Utf8State.mid acc 0 2 0xA0 0xBF
    else if 0xE1 ≤ b ∧ b ≤ 0xEC then Utf8State.mid acc (b - 0xE0) 2 0x80 0xBF
    else if b = 0xED then Utf8State.mid acc 13 2 0x80 0x9F
    else if 0xEE ≤ b ∧ b ≤ 0xEF then Utf8State.mid acc (b - 0xE0) 2 0x80 0xBF
    else if b = 0xF0 then Utf8State.mid acc 0 3 0x90 0xBF
    else if 0xF1 ≤ b ∧ b ≤ 0xF3 then Utf8State.mid acc (b - 0xF0) 3 0x80 0xBF
    else if b = 0xF4 then Utf8State.mid acc 4 3 0x80 0x8F
    else Utf8State.bad
  | Utf8State.mid acc cp need lo hi, b =>
    if lo ≤ b ∧ b ≤ hi then
      if need = 1 then Utf8State.ok (acc ++ [cp * 0x40 + (b - 0x80)])
      else Utf8State.mid acc (cp * 0x40 + (b - 0x80)) (need - 1) 0x80 0xBF
    else Utf8State.bad

/-- Strict UTF-8 decoding of a byte list into a code point list, as
performed by bytes.decode() in Backend._handle_io (backend.py line 73):
rejects stray continuation bytes, truncated sequences, overlong forms,
surrogates and code points above 0x10FFFF, returning none exactly when
Python raises UnicodeDecodeError. -/
def utf8Decode (data : List Nat) : Option (List Nat) :=
  match data.foldl utf8Step (Utf8State.ok []) with
  | Utf8State.ok acc => some acc
  | _ => none

/-- The code point of the lower-case hexadecimal digit for a value
below 16, matching binascii.hexlify output. -/
def hexDigit (n : Nat) : Nat := if n < 10 then 48 + n else 87 + n

/-- Re-rendering of a single byte on the UnicodeDecodeError fallback
path of Backend._handle_io (backend.py lines 75..82): a byte whose value
is in string.printable passes through as that character, any other byte
becomes the four-character token backslash x followed by two lower-case
hex digits. -/
def escapeByte (b : Nat) : List Nat :=
  if b ∈ printableOrds then [b]
  else [92, 120, hexDigit (b / 16), hexDigit (b % 16)]

/-- Byte-by-byte re-rendering of a whole chunk on the decode-failure
path (the for-loop of backend.py lines 76..81). -/
def escapeBytes (data : List Nat) : List Nat := (data.map escapeByte).flatten

/-- The text obtained from one received chunk: the UTF-8 decoding when
it succeeds, otherwise the byte-by-byte escape rendering
(backend.py lines 72..82). -/
def decodeChunk (data : List Nat) : List Nat :=
  match utf8Decode data with
  | some cs => cs
  | none => escapeBytes data

/-- Splitting a text value on the line feed code point 10, with the
semantics of Python str.split: the empty text yields one empty segment,
and a trailing line feed yields a trailing empty segment. -/
def splitLines : List Nat → List (List Nat)
  | [] => [[]]
  | c :: rest =>
    if c = 10 then [] :: splitLines rest
    else
      match splitLines rest with
      | [] => [[c]]
      | x :: xs => (c :: x) :: xs

/-- The list of line texts pushed for one decoded chunk
(backend.py lines 83..84). -/
def readLines (data : List Nat) : List (List Nat) := splitLines (decodeChunk data)

/-- Structural engine for the send while-loop: each step emits the
first 1024 characters and recurses on the rest.  The fuel argument only
bounds the recursion; every step on a nonempty buffer strictly shrinks
it, so any fuel at least the buffer length lets the loop run to
exhaustion. -/
def chunkSendsFuel : Nat → List Nat → List (List Nat)
  | _, [] => []
  | 0, _ :: _ => []
  | f + 1, a :: l => ((a :: l).take 1024) :: chunkSendsFuel f ((a :: l).drop 1024)

/-- The successive sock.send payloads produced by the while-loop of
Backend._handle_io (backend.py lines 55..57): the pending text is sent
in slices of at most 1024 characters until exhausted. -/
def chunkSends (l : List Nat) : List (List Nat) := chunkSendsFuel l.length l

/-- All sock.send payloads for one non-sentinel outbound message: the
1024-character slices, then the single newline byte sent when the
buffer empties (backend.py lines 58..59).  An empty message produces no
sends at all, because the while-loop body never runs. -/
def writeSends (msg : List Nat) : List (List Nat) :=
  chunkSends msg ++ (if msg = [] then [] else [[10]])

/-- The write branch of Backend._handle_io (backend.py lines 48..61)
applied to one message popped from the outbound queue: the pair of the
running flag after the branch and the list of sock.send payloads.  The
comparison with the sentinel at line 52 is an exact, case-sensitive
string equality. -/
def writeBranch (msg : List Nat) : Bool × List (List Nat) :=
  if msg = quitText then (false, [])
  else (true, writeSends msg)

/-- The recv while-loop of Backend._handle_io (backend.py lines 64..67)
run against a script of successive recv results: chunks are consumed
while they are exactly 4096 bytes long; the result is the pair of the
bytes accumulated from full chunks and the final short chunk. -/
def recvLoop : List (List Nat) → List Nat × List Nat
  | [] => ([], [])
  | d :: rest =>
    if d.length = 4096 then
      let p := recvLoop rest
      (d ++ p.1, p.2)
    else ([], d)

/-- The last recv result of a script, or the empty chunk. -/
def lastChunk (chunks : List (List Nat)) : List Nat := chunks.getLast?.getD []

/-- A recv script is well formed when it is nonempty, all results
before the last are exactly 4096 bytes, and the last is not: exactly
the scripts the recv while-loop consumes in full. -/
def wfChunks (chunks : List (List Nat)) : Prop :=
  chunks ≠ [] ∧ (∀ c ∈ chunks.dropLast, c.length = 4096) ∧
    (lastChunk chunks).length ≠ 4096

/-- An inbound message as the spec tags it: a received server line, or
the Quit sentinel.  On the wire of the queue both are plain text and
Quit is represented by the text ;quit (backend.py line 96). -/
inductive InMsg
  | line (text : List Nat)
  | quit
deriving DecidableEq

/-- One multiplexer event delivered to Backend._handle_io.  The field
wmsg is some m when the write bit is set, with m the result of the
non-blocking outbound-queue probe (none models queue.Empty); the field
rchunks is some script when the read bit is set, scripting the recv
results. -/
structure Ev where
  wmsg : Option (Option (List Nat))
  rchunks : Option (List (List Nat))
deriving DecidableEq

/-- Backend._handle_io (backend.py lines 46..86) on one event: returns
the running flag after the callback, the sock.send payloads of the
write branch, and the inbound-queue pushes of the read branch.  The
write branch runs first; the read branch runs regardless of its
outcome; the flag ends false when either branch cleared it. -/
def handleEv (ev : Ev) : Bool × List (List Nat) × List InMsg :=
  let w :=
    match ev.wmsg with
    | none => (true, [])
    | some none => (true, [])
    | some (some msg) => writeBranch msg
  let r :=
    match ev.rchunks with
    | none => (true, [])
    | some chunks =>
      let fin := (recvLoop chunks).2
      if fin = [] then (false, [])
      else (true, (readLines fin).map InMsg.line)
  (w.1 && r.1, w.2, r.2)

/-- The select loop of Backend.run (backend.py lines 91..95) over a
scripted event sequence: events are processed while the running flag
holds, and each returns the flag, all send payloads, and all
inbound-queue pushes, in order. -/
def runLoopR : Bool → List Ev → Bool × List (List Nat) × List InMsg
  | running, [] => (running, [], [])
  | running, ev :: rest =>
    if running then
      let h := handleEv ev
      let t := runLoopR h.1 rest
      (t.1, h.2.1 ++ t.2.1, h.2.2 ++ t.2.2)
    else (false, [], [])

/-- Backend.run (backend.py lines 88..96) for one session: the flag
starts as the connect result, the select loop runs, and one final
sentinel is pushed to the inbound queue unconditionally.  Returns all
send payloads and all inbound pushes. -/
def runBackend (connectOk : Bool) (events : List Ev) :
    List (List Nat) × List InMsg :=
  let t := runLoopR connectOk events
  (t.2.1, t.2.2 ++ [InMsg.quit])

/-- Whether an inbound message is the Quit sentinel. -/
def isQuit : InMsg → Bool
  | InMsg.quit => true
  | InMsg.line _ => false

/-- The number of Quit sentinels in a list of inbound messages. -/
def countQuit (l : List InMsg) : Nat := (l.filter isQuit).length

/-- The key categories of the KEYS table in interface.py (lines 9..74),
in declaration order.  The category called none in the code (the
fallback of keymap.get at line 160) is modelled by Option.none in the
classification result. -/
inductive KeyCat
  | printable
  | backspace
  | enter
  | resize
  | esc
  | kill
  | discard
deriving DecidableEq

/-- The backspace key codes: 8, 127 and curses.KEY_BACKSPACE = 263. -/
def backspaceKeyCodes : List Nat := [8, 127, 263]

/-- The enter key codes: 10, 13 and curses.KEY_ENTER = 343. -/
def enterKeyCodes : List Nat := [10, 13, 343]

/-- The resize key code: curses.KEY_RESIZE = 410. -/
def resizeKeyCodes : List Nat := [410]

/-- The escape key code. -/
def escKeyCodes : List Nat := [27]

/-- The kill key code (Ctrl-D). -/
def killKeyCodes : List Nat := [4]

/-- The discarded key codes of interface.py lines 17..73, in source
order: tab, shift-tab and the navigation and editing keys. -/
def discardKeyCodes : List Nat :=
  [9, 90, 353, 258, 336, 523, 524, 525, 526,
   259, 337, 564, 565, 566, 567,
   260, 393, 543, 544, 545, 546,
   261, 402, 558, 559, 560, 561,
   330, 383, 517, 518, 519, 520,
   331, 538,
   262, 391, 533, 534, 535, 536,
   360, 386, 528, 529, 530, 531,
   339, 398, 553, 554,
   338, 396, 548, 549]

/-- The KEYS table of interface.py in its source (dict literal) order:
printable first, so that later categories override shared codes. -/
def KEYS : List (KeyCat × List Nat) :=
  [(KeyCat.printable, printableOrds),
   (KeyCat.backspace, backspaceKeyCodes),
   (KeyCat.enter, enterKeyCodes),
   (KeyCat.resize, resizeKeyCodes),
   (KeyCat.esc, escKeyCodes),
   (KeyCat.kill, killKeyCodes),
   (KeyCat.discard, discardKeyCodes)]

/-- Insertion of every code of one category list into the key map,
later insertions overriding earlier ones, as the inner loop of
UserInterface.__init__ (interface.py lines 88..90) does. -/
def insertAll (m : Nat → Option KeyCat) (cat : KeyCat) (vs : List Nat) :
    Nat → Option KeyCat :=
  vs.foldl (fun m v => fun x => if x = v then some cat else m x) m

/-- The key map built at startup by UserInterface.__init__
(interface.py lines 87..90): categories are inserted in KEYS order, so
a code listed under several categories ends mapped to the last. -/
def keymap : Nat → Option KeyCat :=
  KEYS.foldl (fun m p => insertAll m p.1 p.2) (fun _ => none)

/-- The classification used by UserInterface._handle_key (interface.py
line 160): the key map lookup, with none standing for the undefined
fallback category. -/
def classify (k : Nat) : Option KeyCat := keymap k

/-- The decimal digit code points of a number, most significant first,
as they appear in a Python f-string. -/
def natToDigits (n : Nat) : List Nat := (Nat.toDigits 10 n).map Char.toNat

/-- The TerminalLoop state owned by the UI thread: the active flag, the
input buffer, the scrollback, and the record of pushes to the outbound
queue, in push order. -/
structure UIState where
  active : Bool
  input : List Nat
  scrollback : List (List Nat)
  outPushes : List (List Nat)
deriving DecidableEq

/-- UserInterface._handle_key (interface.py lines 148..161) together
with the per-category handlers (lines 178..222): printable keys append
their character, backspace drops the last character, enter pushes the
buffer to the outbound queue and clears it, escape clears it, kill
clears the active flag, resize and discard leave the state unchanged
(a successful redraw is assumed), and an undefined key appends the
diagnostic marker left parenthesis, question mark, the decimal digits
of the code, right parenthesis. -/
def handleKey (s : UIState) (k : Nat) : UIState :=
  match classify k with
  | some KeyCat.printable => { s with input := s.input ++ [k] }
  | some KeyCat.backspace => { s with input := s.input.dropLast }
  | some KeyCat.enter =>
      { s with outPushes := s.outPushes ++ [s.input], input := [] }
  | some KeyCat.esc => { s with input := [] }
  | some KeyCat.kill => { s with active := false }
  | some KeyCat.resize => s
  | some KeyCat.discard => s
  | none => { s with input := s.input ++ [40, 63] ++ natToDigits k ++ [41] }

/-- UserInterface._handle_output (interface.py lines 163..176) on one
probe of the inbound queue: none models an empty queue; a message whose
lower-casing equals the sentinel clears the active flag, any other
message is appended to the scrollback. -/
def handleOutput (s : UIState) (m : Option (List Nat)) : UIState :=
  match m with
  | none => s
  | some msg =>
    if lowerText msg = quitText then { s with active := false }
    else { s with scrollback := s.scrollback ++ [msg] }

/-- One tick of the UI main loop: the key returned by the bounded poll
(none when no key arrived) and the inbound message found by the
non-blocking queue probe (none when the queue was empty). -/
structure Tick where
  key : Option Nat
  inMsg : Option (List Nat)
deriving DecidableEq

/-- One iteration of UserInterface._main_loop (interface.py lines
234..245): handle the polled key, then handle the inbound probe. -/
def uiStep (s : UIState) (t : Tick) : UIState :=
  handleOutput (match t.key with | some k => handleKey s k | none => s) t.inMsg

/-- The UI main loop over a scripted tick sequence: ticks are consumed
while the active flag holds. -/
def mainLoop : UIState → List Tick → UIState
  | s, [] => s
  | s, t :: ts => if s.active then mainLoop (uiStep s t) ts else s

/-- The initial UI state: active, empty buffers, nothing pushed. -/
def initUI : UIState := { active := true, input := [], scrollback := [], outPushes := [] }

/-- The outbound-queue traffic of one whole client session (client.py
lines 24..27): everything the UI loop pushed, then the one sentinel the
orchestrator pushes after launch returns. -/
def clientSession (ticks : List Tick) : List (List Nat) :=
  (mainLoop initUI ticks).outPushes ++ [quitText]

/-- The value of a lower-case hexadecimal digit code point. -/
def hexVal (c : Nat) : Nat := if c ≤ 57 then c - 48 else c - 87

/-- With enough fuel, concatenating the send slices restores the whole
buffer. -/
theorem chunkSendsFuel_flatten : ∀ (f : Nat) (l : List Nat), l.length ≤ f →
    (chunkSendsFuel f l).flatten = l := by
  intro f
  induction f with
  | zero =>
    intro l h
    have hl : l = [] := List.eq_nil_of_length_eq_zero (Nat.le_zero.mp h)
    subst hl
    rfl
  | succ f ih =>
    intro l h
    cases l with
    | nil => rfl
    | cons a l2 =>
      simp only [chunkSendsFuel, List.flatten_cons]
      rw [ih ((a :: l2).drop 1024)
        (by simp only [List.length_drop, List.length_cons] at h ⊢; omega)]
      exact List.take_append_drop 1024 (a :: l2)

/-- Concatenating the 1024-character send slices restores the whole
message: the send loop transmits every character of the line. -/
theorem chunkSends_flatten (l : List Nat) : (chunkSends l).flatten = l :=
  chunkSendsFuel_flatten l.length l (Nat.le_refl _)

/-- Every slice the fuelled engine emits holds at most 1024
characters. -/
theorem chunkSendsFuel_length_le : ∀ (f : Nat) (l : List Nat),
    ∀ s ∈ chunkSendsFuel f l, s.length ≤ 1024 := by
  intro f
  induction f with
  | zero =>
    intro l s hs
    cases l <;> simp [chunkSendsFuel] at hs
  | succ f ih =>
    intro l s hs
    cases l with
    | nil => simp [chunkSendsFuel] at hs
    | cons a l2 =>
      simp only [chunkSendsFuel] at hs
      rcases List.mem_cons.mp hs with h | h
      · subst h; simp [List.length_take]
      · exact ih _ s h

/-- Every send slice holds at most 1024 characters. -/
theorem chunkSends_length_le (l : List Nat) : ∀ s ∈ chunkSends l, s.length ≤ 1024 :=
  chunkSendsFuel_length_le l.length l

/-- An ASCII byte in a clean decoder state passes straight through. -/
theorem utf8Step_ascii (acc : List Nat) (b : Nat) (hb : b < 128) :
    utf8Step (Utf8State.ok acc) b = Utf8State.ok (acc ++ [b]) := by
  simp [utf8Step, hb]

/-- Folding the decoder over ASCII bytes appends them unchanged. -/
theorem foldl_utf8_ascii : ∀ data acc : List Nat, (∀ b ∈ data, b < 128) →
    data.foldl utf8Step (Utf8State.ok acc) = Utf8State.ok (acc ++ data) := by
  intro data
  induction data with
  | nil => intro acc _; simp
  | cons b rest ih =>
    intro acc h
    have hb : b < 128 := h b (List.mem_cons_self b rest)
    rw [List.foldl_cons, utf8Step_ascii acc b hb,
      ih (acc ++ [b]) (fun x hx => h x (List.mem_cons_of_mem b hx))]
    simp

/-- UTF-8 decoding is the identity on byte lists below 0x80. -/
theorem utf8Decode_ascii (data : List Nat) (h : ∀ b ∈ data, b < 128) :
    utf8Decode data = some data := by
  simp [utf8Decode, foldl_utf8_ascii data [] h]

/-- Splitting never yields an empty segment list. -/
theorem splitLines_ne_nil : ∀ l : List Nat, splitLines l ≠ []
  | [] => by simp [splitLines]
  | c :: rest => by
    simp only [splitLines]
    split
    · simp
    · split <;> simp

/-- The number of segments is the number of line feeds plus one, so the
segment after the last line feed (the trailing partial line) is always
among the segments. -/
theorem splitLines_length : ∀ l : List Nat, (splitLines l).length = l.count 10 + 1
  | [] => by simp [splitLines]
  | c :: rest => by
    by_cases hc : c = 10
    · subst hc
      simp [splitLines, splitLines_length rest, List.count_cons]
    · have hne := splitLines_ne_nil rest
      have hlen := splitLines_length rest
      simp only [splitLines, if_neg hc]
      cases h : splitLines rest with
      | nil => exact absurd h hne
      | cons x xs =>
        rw [h] at hlen
        simp only [List.length_cons] at hlen ⊢
        have hc2 : ¬ ((10 : Nat) = c) := fun hx => hc hx.symm
        simp [List.count_cons, hc2, hlen]

/-- On a well-formed recv script the recv loop buffers exactly the full
chunks and returns the last chunk as the data to decode. -/
theorem recvLoop_wf : ∀ chunks : List (List Nat), wfChunks chunks →
    recvLoop chunks = (chunks.dropLast.flatten, lastChunk chunks)
  | [], h => absurd rfl h.1
  | [c], h => by
    have hlen : ¬ c.length = 4096 := by simpa [lastChunk] using h.2.2
    simp [recvLoop, hlen, lastChunk]
  | c :: c2 :: rest, h => by
    have hc : c.length = 4096 := h.2.1 c (by simp)
    have htail : wfChunks (c2 :: rest) := by
      refine ⟨by simp, ?_, ?_⟩
      · intro x hx
        exact h.2.1 x (by simpa using Or.inr hx)
      · simpa [lastChunk, List.getLast?_cons_cons] using h.2.2
    have ih := recvLoop_wf (c2 :: rest) htail
    have step : recvLoop (c :: c2 :: rest) =
        if c.length = 4096 then
          (c ++ (recvLoop (c2 :: rest)).1, (recvLoop (c2 :: rest)).2)
        else ([], c) := rfl
    rw [step, if_pos hc, ih]
    simp [lastChunk, List.getLast?_cons_cons, List.dropLast_cons₂]

/-- Every inbound push made inside the select loop is a ServerLine. -/
theorem handleEv_pushes_line (ev : Ev) (m : InMsg)
    (hm : m ∈ (handleEv ev).2.2) : ∃ t, m = InMsg.line t := by
  rcases ev with ⟨w, r⟩
  cases r with
  | none => simp [handleEv] at hm
  | some chunks =>
    by_cases hf : (recvLoop chunks).2 = []
    · simp [handleEv, hf] at hm
    · simp only [handleEv, hf, if_neg, if_false] at hm
      simp at hm
      obtain ⟨t, _, ht⟩ := hm
      exact ⟨t, ht.symm⟩

/-- The select loop never pushes the Quit sentinel itself. -/
theorem quit_not_in_loop : ∀ (r : Bool) (evs : List Ev),
    InMsg.quit ∉ (runLoopR r evs).2.2 := by
  intro r evs
  induction evs generalizing r with
  | nil => simp [runLoopR]
  | cons ev rest ih =>
    by_cases hr : r = true
    · subst hr
      simp only [runLoopR, if_true]
      intro hmem
      rcases List.mem_append.mp hmem with h | h
      · obtain ⟨t, ht⟩ := handleEv_pushes_line ev InMsg.quit h
        exact InMsg.noConfusion ht
      · exact ih _ h
    · simp [runLoopR, hr]

/-- Quit counting distributes over concatenation. -/
theorem countQuit_append (a b : List InMsg) :
    countQuit (a ++ b) = countQuit a + countQuit b := by
  simp [countQuit, List.filter_append]

/-- A list without the sentinel counts zero Quit messages. -/
theorem countQuit_eq_zero (l : List InMsg) (h : InMsg.quit ∉ l) :
    countQuit l = 0 := by
  simp only [countQuit, List.length_eq_zero]
  rw [List.filter_eq_nil_iff]
  intro a ha
  cases a with
  | line t => simp [isQuit]
  | quit => exact absurd ha h

/-- With the running flag cleared the select loop does nothing. -/
theorem runLoopR_false (evs : List Ev) : runLoopR false evs = (false, [], []) := by
  cases evs <;> simp [runLoopR]

/-- The select loop splits over a concatenation of event scripts. -/
theorem runLoopR_append (r : Bool) (l1 l2 : List Ev) :
    runLoopR r (l1 ++ l2) =
      ((runLoopR (runLoopR r l1).1 l2).1,
       (runLoopR r l1).2.1 ++ (runLoopR (runLoopR r l1).1 l2).2.1,
       (runLoopR r l1).2.2 ++ (runLoopR (runLoopR r l1).1 l2).2.2) := by
  induction l1 generalizing r with
  | nil => simp [runLoopR]
  | cons ev rest ih =>
    cases r with
    | true => simp [runLoopR, ih, List.append_assoc]
    | false => simp [runLoopR, runLoopR_false]

/-- Key codes absent from one category list are untouched by its
insertion pass. -/
theorem insertAll_not_mem : ∀ (vs : List Nat) (m : Nat → Option KeyCat)
    (cat : KeyCat) (k : Nat), k ∉ vs → insertAll m cat vs k = m k
  | [], _, _, _, _ => rfl
  | v :: vs, m, cat, k, h => by
    have hk : ¬ k = v := fun hkv => h (by simp [hkv])
    have hvs : k ∉ vs := fun hm => h (by simp [hm])
    have ih := insertAll_not_mem vs (fun x => if x = v then some cat else m x) cat k hvs
    simp only [insertAll, List.foldl_cons] at ih ⊢
    rw [ih]
    simp [hk]

/-- Key codes absent from every category list keep their initial
mapping through the whole table build. -/
theorem keymapFold_not_mem : ∀ (L : List (KeyCat × List Nat))
    (m : Nat → Option KeyCat) (k : Nat), (∀ p ∈ L, k ∉ p.2) →
    (L.foldl (fun m p => insertAll m p.1 p.2) m) k = m k
  | [], _, _, _ => rfl
  | p :: L, m, k, h => by
    have h1 : k ∉ p.2 := h p (by simp)
    have h2 : ∀ q ∈ L, k ∉ q.2 := fun q hq => h q (by simp [hq])
    simp only [List.foldl_cons]
    rw [keymapFold_not_mem L _ k h2, insertAll_not_mem p.2 m p.1 k h1]

set_option maxRecDepth 8192 in
/-- Exhaustive check of the escape rendering for every byte value:
printable bytes pass through, all others become the backslash-x token
whose two lower-case hex digits recover exactly the byte value. -/
theorem escapeByte_spec : ∀ b : Nat, b < 256 →
    (b ∈ printableOrds → escapeByte b = [b]) ∧
    (b ∉ printableOrds →
      escapeByte b = [92, 120, hexDigit (b / 16), hexDigit (b % 16)] ∧
      ((48 ≤ hexDigit (b / 16) ∧ hexDigit (b / 16) ≤ 57) ∨
        (97 ≤ hexDigit (b / 16) ∧ hexDigit (b / 16) ≤ 102)) ∧
      ((48 ≤ hexDigit (b % 16) ∧ hexDigit (b % 16) ≤ 57) ∨
        (97 ≤ hexDigit (b % 16) ∧ hexDigit (b % 16) ≤ 102)) ∧
      hexVal (hexDigit (b / 16)) * 16 + hexVal (hexDigit (b % 16)) = b) := by
  decide

/-- For a nonempty, non-sentinel message the write branch transmits
exactly the message bytes followed by one newline byte. -/
theorem writeBranch_flatten (msg : List Nat) (h1 : msg ≠ quitText)
    (h2 : msg ≠ []) : ((writeBranch msg).2).flatten = msg ++ [10] := by
  rw [writeBranch, if_neg h1]
  simp [writeSends, h2, List.flatten_append, chunkSends_flatten]

/-- Claim C1, counterexample: in a session whose connect fails, the
backend run loop still pushes the sentinel to the inbound queue, so
the inbound queue does receive a message, contrary to the claim that
no message and in particular no Quit sentinel reaches it. -/
theorem connect_failure_quit_reaches_inbound :
    runBackend false [] = ([], [InMsg.quit]) ∧ (runBackend false []).2 ≠ [] := by
  decide

/-- Claim C1, amended: for every session in which connecting fails,
NetworkLoop terminates immediately without entering the multiplex loop
and without sending anything, but it does emit exactly one message to
the inbound queue: the final unconditional Quit sentinel of
Backend.run. -/
theorem connect_failure_emits_one_quit (evs : List Ev) :
    runBackend false evs = ([], [InMsg.quit]) := by
  simp [runBackend, runLoopR_false]

/-- Claim C2, counterexample: on a read delivering the chunk a, line
feed, b, line feed, c, the trailing unterminated segment c is pushed
to the inbound queue immediately, not held for the next read. -/
theorem trailing_partial_pushed :
    (handleEv ⟨none, some [[97, 10, 98, 10, 99]]⟩).2.2 =
      [InMsg.line [97], InMsg.line [98], InMsg.line [99]] ∧
    InMsg.line [99] ∈ (handleEv ⟨none, some [[97, 10, 98, 10, 99]]⟩).2.2 := by
  decide

/-- Claim C2, amended: for every readable event whose final chunk is
nonempty, the read branch pushes every segment of the split of the
decoded final chunk, including the trailing segment with no line-feed
terminator: the number of pushes is the line-feed count plus one, so
nothing is held back for the next read. -/
theorem read_event_emits_trailing_segment (w : Option (Option (List Nat)))
    (chunks : List (List Nat)) (h : (recvLoop chunks).2 ≠ []) :
    (handleEv ⟨w, some chunks⟩).2.2 =
      (splitLines (decodeChunk ((recvLoop chunks).2))).map InMsg.line ∧
    ((handleEv ⟨w, some chunks⟩).2.2).length =
      (decodeChunk ((recvLoop chunks).2)).count 10 + 1 := by
  constructor
  · simp [handleEv, h, readLines]
  · simp [handleEv, h, readLines, splitLines_length]

/-- Witness for claim C2 at the chunk a, line feed, c. -/
theorem read_event_emits_trailing_segment_witness :
    (handleEv ⟨none, some [[97, 10, 99]]⟩).2.2 =
      (splitLines (decodeChunk ((recvLoop [[97, 10, 99]]).2))).map InMsg.line ∧
    ((handleEv ⟨none, some [[97, 10, 99]]⟩).2.2).length =
      (decodeChunk ((recvLoop [[97, 10, 99]]).2)).count 10 + 1 :=
  read_event_emits_trailing_segment none [[97, 10, 99]] (by decide)

/-- Claim C3, counterexample: the outbound text ;QUIT matches the
sentinel case-insensitively, yet the write branch keeps the loop
running and transmits the text followed by a newline on the wire. -/
theorem sentinel_case_variant_transmitted :
    lowerText [59, 81, 85, 73, 84] = quitText ∧
    (writeBranch [59, 81, 85, 73, 84]).1 = true ∧
    ((writeBranch [59, 81, 85, 73, 84]).2).flatten = [59, 81, 85, 73, 84, 10] := by
  decide

/-- Claim C3, amended: the write branch transmits zero bytes and marks
the loop for termination exactly when the outbound text equals the
lower-case sentinel ;quit verbatim; any other nonempty text, including
case variants of the sentinel, is transmitted in full followed by a
newline. -/
theorem sentinel_exact_match_only (msg : List Nat) (h : msg ≠ []) :
    (writeBranch msg = (false, []) ↔ msg = quitText) ∧
    (msg ≠ quitText →
      (writeBranch msg).1 = true ∧ ((writeBranch msg).2).flatten = msg ++ [10]) := by
  constructor
  · constructor
    · intro hwb
      by_contra hne
      rw [writeBranch, if_neg hne] at hwb
      exact Bool.noConfusion (congrArg Prod.fst hwb)
    · intro he
      rw [writeBranch, if_pos he]
  · intro hne
    refine ⟨by rw [writeBranch, if_neg hne], writeBranch_flatten msg hne h⟩

/-- Witness for claim C3 at the sentinel itself and at the text ab. -/
theorem sentinel_exact_match_only_witness :
    writeBranch quitText = (false, []) ∧
    ((writeBranch [97, 98]).2).flatten = [97, 98, 10] :=
  ⟨(sentinel_exact_match_only quitText (by decide)).1.mpr rfl,
   ((sentinel_exact_match_only [97, 98] (by decide)).2 (by decide)).2⟩

/-- Claim C8, counterexample: a 2000-character outbound line is
transmitted in full, 2001 bytes including the newline, so no
truncation to a bounded frame length happens before transmission. -/
theorem long_line_not_truncated :
    ((writeBranch (List.replicate 2000 97)).2).flatten =
      List.replicate 2000 97 ++ [10] ∧
    (List.replicate 2000 97 ++ [10]).length = 2001 := by
  refine ⟨writeBranch_flatten _ (by decide) (by decide), ?_⟩
  rw [List.length_append, List.length_replicate]
  rfl

/-- Claim C8, amended: outbound lines are never truncated; the whole
line is transmitted, split into successive sends of at most 1024
characters each, followed by a one-byte newline send. -/
theorem outbound_chunked_not_truncated (msg : List Nat)
    (h1 : msg ≠ quitText) (h2 : msg ≠ []) :
    ((writeBranch msg).2).flatten = msg ++ [10] ∧
    ∀ s ∈ (writeBranch msg).2, s.length ≤ 1024 := by
  refine ⟨writeBranch_flatten msg h1 h2, ?_⟩
  rw [writeBranch, if_neg h1]
  intro s hs
  simp only [writeSends, h2, if_neg, List.mem_append] at hs
  rcases hs with hs | hs
  · exact chunkSends_length_le msg s hs
  · simp at hs
    subst hs
    decide

/-- Witness for claim C8 at a 1500-character line. -/
theorem outbound_chunked_not_truncated_witness :
    ((writeBranch (List.replicate 1500 97)).2).flatten =
      List.replicate 1500 97 ++ [10] ∧
    ∀ s ∈ (writeBranch (List.replicate 1500 97)).2, s.length ≤ 1024 :=
  outbound_chunked_not_truncated (List.replicate 1500 97) (by decide) (by decide)

/-- Claim C5: in every session in which a read returns zero bytes
(while the loop is still running), NetworkLoop terminates, the inbound
queue receives the pushes made before that event followed by exactly
one Quit sentinel, and the zero-length read itself contributes no
ServerLine entry. -/
theorem zero_read_terminates_one_quit (pre : List Ev)
    (w : Option (Option (List Nat))) (chunks : List (List Nat)) (rest : List Ev)
    (hpre : (runLoopR true pre).1 = true) (hz : (recvLoop chunks).2 = []) :
    (runBackend true (pre ++ ⟨w, some chunks⟩ :: rest)).2 =
      (runLoopR true pre).2.2 ++ [InMsg.quit] ∧
    countQuit ((runBackend true (pre ++ ⟨w, some chunks⟩ :: rest)).2) = 1 := by
  have hev1 : (handleEv ⟨w, some chunks⟩).1 = false := by
    simp [handleEv, hz]
  have hev2 : (handleEv ⟨w, some chunks⟩).2.2 = [] := by
    simp [handleEv, hz]
  have hmid : (runLoopR true (⟨w, some chunks⟩ :: rest)).2.2 = [] := by
    simp [runLoopR, hev1, hev2, runLoopR_false]
  have hmain : (runBackend true (pre ++ ⟨w, some chunks⟩ :: rest)).2 =
      (runLoopR true pre).2.2 ++ [InMsg.quit] := by
    simp only [runBackend, runLoopR_append, hpre, hmid, List.append_nil]
  refine ⟨hmain, ?_⟩
  rw [hmain, countQuit_append,
    countQuit_eq_zero _ (quit_not_in_loop true pre)]
  rfl

/-- Witness for claim C5: a first event whose single recv returns zero
bytes ends the session with the bare Quit sentinel inbound. -/
theorem zero_read_terminates_one_quit_witness :
    (runBackend true ([] ++ ⟨none, some [[]]⟩ :: [])).2 =
      (runLoopR true []).2.2 ++ [InMsg.quit] ∧
    countQuit ((runBackend true ([] ++ ⟨none, some [[]]⟩ :: [])).2) = 1 :=
  zero_read_terminates_one_quit [] none [[]] [] rfl (by decide)

/-- The inbound pushes of a readable event whose final chunk is
nonempty are the decoded lines of that final chunk. -/
theorem handleEv_read (w : Option (Option (List Nat)))
    (chunks : List (List Nat)) (h : (recvLoop chunks).2 ≠ []) :
    (handleEv ⟨w, some chunks⟩).2.2 =
      (readLines ((recvLoop chunks).2)).map InMsg.line := by
  simp [handleEv, h]

/-- Claim C6, counterexample: when a readable event delivers a full
4096-byte chunk holding a complete line (4095 letters a and a line
feed) followed by a short chunk holding z, only the line z is pushed;
the line from the full chunk is dropped, so bytes received during the
event never reach the inbound queue. -/
theorem full_chunk_lines_dropped :
    wfChunks [List.replicate 4095 97 ++ [10], [122]] ∧
    (handleEv ⟨none, some [List.replicate 4095 97 ++ [10], [122]]⟩).2.2 =
      [InMsg.line [122]] ∧
    InMsg.line (List.replicate 4095 97) ∉
      (handleEv ⟨none, some [List.replicate 4095 97 ++ [10], [122]]⟩).2.2 := by
  have hlen : (List.replicate 4095 97 ++ [10]).length = 4096 := by
    rw [List.length_append, List.length_replicate]
    rfl
  have hwf : wfChunks [List.replicate 4095 97 ++ [10], [122]] := by
    refine ⟨List.cons_ne_nil _ _, ?_, ?_⟩
    · intro c hc
      rw [List.dropLast_cons₂, List.dropLast_single, List.mem_singleton] at hc
      subst hc
      exact hlen
    · simp only [lastChunk, List.getLast?_cons_cons, List.getLast?_singleton,
        Option.getD_some]
      decide
  have hrecv : recvLoop [List.replicate 4095 97 ++ [10], [122]] =
      ((List.replicate 4095 97 ++ [10]) ++ [], [122]) := by
    have step : recvLoop [List.replicate 4095 97 ++ [10], [122]] =
        if (List.replicate 4095 97 ++ [10]).length = 4096 then
          ((List.replicate 4095 97 ++ [10]) ++ (recvLoop [[122]]).1,
           (recvLoop [[122]]).2)
        else ([], List.replicate 4095 97 ++ [10]) := rfl
    rw [step, if_pos hlen]
    rfl
  have hne : (recvLoop [List.replicate 4095 97 ++ [10], [122]]).2 ≠ [] := by
    rw [hrecv]
    decide
  have hev : (handleEv ⟨none, some [List.replicate 4095 97 ++ [10], [122]]⟩).2.2 =
      [InMsg.line [122]] := by
    rw [handleEv_read none _ hne, hrecv]
    decide
  refine ⟨hwf, hev, ?_⟩
  rw [hev]
  intro hmem
  rw [List.mem_singleton] at hmem
  have hinj : List.replicate 4095 97 = [122] := by
    injection hmem
  have hL := congrArg List.length hinj
  rw [List.length_replicate] at hL
  exact absurd hL (by decide)

/-- Claim C6, amended: for every readable event over a well-formed
recv script with a nonempty final chunk, the lines pushed to the
inbound queue are exactly the decoded lines of the final chunk, in
order; the bytes of the earlier full 4096-byte chunks only accumulate
in the output buffer, which nothing ever reads, so their lines are
never pushed. -/
theorem read_event_final_chunk_only (w : Option (Option (List Nat)))
    (chunks : List (List Nat)) (h1 : wfChunks chunks)
    (h2 : lastChunk chunks ≠ []) :
    (handleEv ⟨w, some chunks⟩).2.2 =
      (readLines (lastChunk chunks)).map InMsg.line ∧
    (recvLoop chunks).1 = chunks.dropLast.flatten := by
  have hr := recvLoop_wf chunks h1
  have hfin : (recvLoop chunks).2 = lastChunk chunks := by rw [hr]
  constructor
  · rw [handleEv_read w chunks (by rw [hfin]; exact h2), hfin]
  · rw [hr]

/-- Witness for claim C6 at the one-chunk script holding the byte a. -/
theorem read_event_final_chunk_only_witness :
    (handleEv ⟨none, some [[97]]⟩).2.2 =
      (readLines (lastChunk [[97]])).map InMsg.line ∧
    (recvLoop [[97]]).1 = ([[97]] : List (List Nat)).dropLast.flatten :=
  read_event_final_chunk_only none [[97]]
    ⟨by decide, by decide, by decide⟩ (by decide)

/-- Claim C7: for every received chunk that fails UTF-8 decoding, the
decode step re-renders the whole chunk byte by byte: each byte in
string.printable passes through as its character, and every other byte
becomes exactly one four-character token, backslash x followed by two
lower-case hex digits whose value is exactly that byte, one token per
raw byte with no grouping, so the rendering accounts for every input
byte. -/
theorem invalid_chunk_escaped_bytewise (data : List Nat)
    (h : utf8Decode data = none) :
    decodeChunk data = (data.map escapeByte).flatten ∧
    ∀ b ∈ data, b < 256 →
      (b ∈ printableOrds → escapeByte b = [b]) ∧
      (b ∉ printableOrds → ∃ d1 d2, escapeByte b = [92, 120, d1, d2] ∧
        ((48 ≤ d1 ∧ d1 ≤ 57) ∨ (97 ≤ d1 ∧ d1 ≤ 102)) ∧
        ((48 ≤ d2 ∧ d2 ≤ 57) ∨ (97 ≤ d2 ∧ d2 ≤ 102)) ∧
        hexVal d1 * 16 + hexVal d2 = b) := by
  constructor
  · simp [decodeChunk, h, escapeBytes]
  · intro b _ hb
    have hs := escapeByte_spec b hb
    refine ⟨hs.1, fun hnp => ?_⟩
    obtain ⟨he, hd1, hd2, hv⟩ := hs.2 hnp
    exact ⟨hexDigit (b / 16), hexDigit (b % 16), he, hd1, hd2, hv⟩

/-- Witness for claim C7 at the undecodable chunk of bytes 255 and
65. -/
theorem invalid_chunk_escaped_bytewise_witness :
    decodeChunk [255, 65] = (([255, 65] : List Nat).map escapeByte).flatten ∧
    ∀ b ∈ ([255, 65] : List Nat), b < 256 →
      (b ∈ printableOrds → escapeByte b = [b]) ∧
      (b ∉ printableOrds → ∃ d1 d2, escapeByte b = [92, 120, d1, d2] ∧
        ((48 ≤ d1 ∧ d1 ≤ 57) ∨ (97 ≤ d1 ∧ d1 ≤ 102)) ∧
        ((48 ≤ d2 ∧ d2 ≤ 57) ∨ (97 ≤ d2 ∧ d2 ≤ 102)) ∧
        hexVal d1 * 16 + hexVal d2 = b) :=
  invalid_chunk_escaped_bytewise [255, 65] (by decide)

/-- Claim C9: for every byte sequence of printable ASCII characters
and line feeds, UTF-8 decoding succeeds and returns the bytes as code
points, the chunk decode step takes the decoding branch (so no escape
token is ever produced), and the emitted lines are exactly the split
of the UTF-8 decoding on line feed. -/
theorem printable_ascii_decode_split (data : List Nat)
    (h : ∀ b ∈ data, (32 ≤ b ∧ b ≤ 126) ∨ b = 10) :
    utf8Decode data = some data ∧ decodeChunk data = data ∧
    readLines data = splitLines data := by
  have h128 : ∀ b ∈ data, b < 128 := by
    intro b hb
    rcases h b hb with ⟨_, h2⟩ | rfl
    · omega
    · omega
  have hu := utf8Decode_ascii data h128
  have hd : decodeChunk data = data := by simp [decodeChunk, hu]
  exact ⟨hu, hd, by rw [readLines, hd]⟩

/-- Witness for claim C9 at the bytes h, i, line feed, exclamation
mark. -/
theorem printable_ascii_decode_split_witness :
    utf8Decode [104, 105, 10, 33] = some [104, 105, 10, 33] ∧
    decodeChunk [104, 105, 10, 33] = [104, 105, 10, 33] ∧
    readLines [104, 105, 10, 33] = splitLines [104, 105, 10, 33] :=
  printable_ascii_decode_split [104, 105, 10, 33] (by decide)

/-- Claim C4, counterexample: in the session where the user types the
five characters of the sentinel, presses enter, and the inbound Quit
then arrives, the outbound queue receives the Quit sentinel twice:
once from the enter handler and once from the orchestrator after the
loop exits — more than once in the UI-to-network direction. -/
theorem typed_sentinel_double_quit :
    clientSession
      [⟨some 59, none⟩, ⟨some 113, none⟩, ⟨some 117, none⟩,
       ⟨some 105, none⟩, ⟨some 116, none⟩, ⟨some 10, none⟩,
       ⟨none, some [59, 113, 117, 105, 116]⟩] = [quitText, quitText] ∧
    (clientSession
      [⟨some 59, none⟩, ⟨some 113, none⟩, ⟨some 117, none⟩,
       ⟨some 105, none⟩, ⟨some 116, none⟩, ⟨some 10, none⟩,
       ⟨none, some [59, 113, 117, 105, 116]⟩]).count quitText = 2 := by
  decide

/-- Claim C4, amended: NetworkLoop pushes Quit to the inbound queue
exactly once per session, and the orchestrator adds exactly one Quit
to the outbound queue after the UI loop exits; but when the user
submits the sentinel text the enter handler has already pushed a Quit
of its own, so the outbound count is one only in sessions whose UI
loop never pushed the sentinel. -/
theorem quit_once_per_direction (ok : Bool) (evs : List Ev)
    (ticks : List Tick)
    (h : quitText ∉ (mainLoop initUI ticks).outPushes) :
    countQuit ((runBackend ok evs).2) = 1 ∧
    clientSession ticks = (mainLoop initUI ticks).outPushes ++ [quitText] ∧
    (clientSession ticks).count quitText = 1 := by
  refine ⟨?_, rfl, ?_⟩
  · have hb : (runBackend ok evs).2 = (runLoopR ok evs).2.2 ++ [InMsg.quit] := rfl
    rw [hb, countQuit_append, countQuit_eq_zero _ (quit_not_in_loop ok evs)]
    rfl
  · rw [clientSession, List.count_append, List.count_eq_zero.mpr h]
    rfl

/-- Witness for claim C4 at the empty session. -/
theorem quit_once_per_direction_witness :
    countQuit ((runBackend false []).2) = 1 ∧
    clientSession [] = (mainLoop initUI []).outPushes ++ [quitText] ∧
    (clientSession []).count quitText = 1 :=
  quit_once_per_direction false [] [] (by decide)

/-- Claim C10: the key table built at startup maps a code listed under
both printable and a later category to the later category: tab (9) to
discard, 10 and 13 to enter — in general every code shared between the
printable list and the discard or enter list gets the later category,
never printable — dispatching tab to the no-op handler and 10 and 13
to the submit handler, while every code in no list at all is left
unmapped, which dispatches to the undefined-key handler. -/
theorem keymap_later_category_wins :
    classify 9 = some KeyCat.discard ∧
    classify 10 = some KeyCat.enter ∧
    classify 13 = some KeyCat.enter ∧
    (∀ k ∈ printableOrds, k ∈ discardKeyCodes →
      classify k = some KeyCat.discard) ∧
    (∀ k ∈ printableOrds, k ∈ enterKeyCodes → classify k = some KeyCat.enter) ∧
    (∀ s : UIState, handleKey s 9 = s) ∧
    (∀ s : UIState, handleKey s 10 =
      ⟨s.active, [], s.scrollback, s.outPushes ++ [s.input]⟩) ∧
    (∀ k : Nat, (∀ p ∈ KEYS, k ∉ p.2) → classify k = none) := by
  refine ⟨by decide, by decide, by decide, by decide, by decide, ?_, ?_, ?_⟩
  · intro s
    have h9 : classify 9 = some KeyCat.discard := by decide
    simp [handleKey, h9]
  · intro s
    have h10 : classify 10 = some KeyCat.enter := by decide
    simp [handleKey, h10]
  · intro k hk
    exact keymapFold_not_mem KEYS (fun _ => none) k hk

/-- Witness for claim C10 at tab, the two enter codes, and the
unlisted code 1000. -/
theorem keymap_later_category_wins_witness :
    classify 9 = some KeyCat.discard ∧ classify 1000 = none :=
  ⟨keymap_later_category_wins.1,
   keymap_later_category_wins.2.2.2.2.2.2.2 1000 (by decide)⟩
